import Mathlib

/-!
Shallow embedding of the identity & access subsystem of `lam-phuong-api`
(Go), together with theorems settling the frozen claims about its
natural-language specification.

The embedding follows the Go sources:
* `internal/user` repositories (in-memory map store and the two
  Airtable-backed variants) — `src/unnamed/part_008` and
  `src/internal/user/repository.go`;
* the user HTTP handlers (`RegisterHandler`, `ListUsers`, `CreateUser`) —
  `src/unnamed/part_009`;
* the location `ToggleLocationStatus` handler (role gate) —
  `src/unnamed/part_003`;
* `GenerateVerificationToken` — `src/internal/email/service.go`.

Go maps are modelled as association lists; a map write `m[k] = v` is
modelled as "erase the key, then append", which realises the same
key/value function.  Network calls (the Airtable client) and other
collaborators (password hashing, JWT signing, slug normalisation, the
random source) are passed in as explicit function/`Option` parameters so
that both their success and failure behaviours can be stated.
-/

namespace LamPhuong

/-- The user record, as used throughout `src/unnamed/part_008` and
`src/unnamed/part_009` (fields `ID`, `Email`, `Password`, `Role`,
`Status`, `EmailVerificationToken`, all strings). -/
structure User where
  id : String
  email : String
  password : String
  role : String
  status : String
  emailVerificationToken : String
deriving DecidableEq

/-- Modelled from the spec: the role string constants (the user model file
is absent from the sources; the values are documented in
`docs/AUTHORIZATION.md`). -/
def RoleSuperAdmin : String := "Super Admin"

/-- Modelled from the spec: see `RoleSuperAdmin`. -/
def RoleAdmin : String := "Admin"

/-- Modelled from the spec: see `RoleSuperAdmin`. -/
def RoleUser : String := "User"

/-- Modelled from the spec: the account status constants (values
documented in the repository's email-verification guide). -/
def StatusPending : String := "pending"

/-- Modelled from the spec: see `StatusPending`. -/
def StatusActive : String := "active"

/-- Modelled from the spec: the list of valid roles checked by
`Handler.CreateUser` (definition absent from the sources). -/
def ValidRoles : List String := [RoleSuperAdmin, RoleAdmin, RoleUser]

/-- Modelled from the spec: Airtable column names used by the user
repository (constants absent from the sources; values documented in the
email-verification guide). -/
def FieldEmail : String := "Email"

/-- Modelled from the spec: see `FieldEmail`. -/
def FieldPassword : String := "Password"

/-- Modelled from the spec: see `FieldEmail`. -/
def FieldRole : String := "Role"

/-- Modelled from the spec: see `FieldEmail`. -/
def FieldStatus : String := "Status"

/-- Modelled from the spec: see `FieldEmail`. -/
def FieldEmailVerificationToken : String := "Email Verification Token"

/-- Modelled from the spec: see `FieldEmail`. -/
def FieldCreatedAt : String := "Created At"

/-- Modelled from the spec: see `FieldEmail`. -/
def FieldUpdatedAt : String := "Updated At"

/-- ASCII lower-casing of one character, as `strings.ToLower` acts on the
ASCII range (emails and tokens in this system are ASCII). -/
def toLowerChar (c : Char) : Char :=
  if 'A' ≤ c ∧ c ≤ 'Z' then Char.ofNat (c.toNat + 32) else c

/-- `strings.ToLower` (ASCII range). -/
def strToLower (s : String) : String := String.mk (s.data.map toLowerChar)

/-- The ASCII whitespace recognised by `strings.TrimSpace`. -/
def isSpaceChar : Char → Bool
  | ' ' => true
  | '\t' => true
  | '\n' => true
  | '\r' => true
  | _ => false

/-- `strings.TrimSpace` (ASCII whitespace). -/
def strTrim (s : String) : String :=
  String.mk (((s.data.dropWhile isSpaceChar).reverse.dropWhile isSpaceChar).reverse)

/-- Whether `pat` occurs somewhere in the character list. -/
def subOccurs (pat : List Char) : List Char → Bool
  | [] => pat.isEmpty
  | c :: rest => pat.isPrefixOf (c :: rest) || subOccurs pat rest

/-- `strings.Contains`. -/
def strContains (s pat : String) : Bool := subOccurs pat.data s.data

/-- A Go map write `m[k] = v` on an association list: erase the key,
append the new binding.  Realises the same lookup function as the map. -/
def mapWrite (data : List (String × User)) (k : String) (v : User) :
    List (String × User) :=
  data.filter (fun p => p.1 != k) ++ [(k, v)]

/-- A Go map read `m[k]` on an association list. -/
def mapRead (data : List (String × User)) (k : String) : Option User :=
  (data.find? (fun p => p.1 == k)).map (fun p => p.2)

/-- `InMemoryRepository` (src/unnamed/part_008): a map from ID to user
plus the next numeric ID. -/
structure InMemoryRepo where
  data : List (String × User)
  nextID : Nat

/-- The repository produced by `NewInMemoryRepository(nil)`. -/
def InMemoryRepo.empty : InMemoryRepo := { data := [], nextID := 1 }

/-- `InMemoryRepository.GetByEmail` (part_008 lines 109-120): linear scan
for an exactly equal email. -/
def InMemoryRepo.getByEmail (r : InMemoryRepo) (email : String) : Option User :=
  (r.data.find? (fun p => p.2.email == email)).map (fun p => p.2)

/-- `InMemoryRepository.GetByVerificationToken` (part_008 lines 122-134):
linear scan for an exactly equal token field. -/
def InMemoryRepo.getByVerificationToken (r : InMemoryRepo) (token : String) :
    Option User :=
  (r.data.find? (fun p => p.2.emailVerificationToken == token)).map (fun p => p.2)

/-- `InMemoryRepository.Get` (part_008 lines 100-106). -/
def InMemoryRepo.get (r : InMemoryRepo) (id : String) : Option User :=
  mapRead r.data id

/-- `InMemoryRepository.Create` (part_008 lines 68-84): reject when some
stored user has exactly the same email, otherwise assign the next numeric
ID and store. -/
def InMemoryRepo.create (r : InMemoryRepo) (user : User) :
    Except String User × InMemoryRepo :=
  if r.data.any (fun p => p.2.email == user.email) then
    (Except.error ("user with email " ++ user.email ++ " already exists"), r)
  else
    let stored := { user with id := toString r.nextID }
    (Except.ok stored,
      { data := mapWrite r.data stored.id stored, nextID := r.nextID + 1 })

/-- `InMemoryRepository.Delete` (part_008 lines 87-97). -/
def InMemoryRepo.delete (r : InMemoryRepo) (id : String) :
    Bool × InMemoryRepo :=
  if r.data.any (fun p => p.1 == id) then
    (true, { r with data := r.data.filter (fun p => p.1 != id) })
  else
    (false, r)

/-- The field merge performed by `InMemoryRepository.Update` (part_008
lines 147-159): ID and email are always taken from the existing record;
password and role are taken from the existing record when the incoming
value is empty; the status field is written through unconditionally
(there is no preservation branch for it). -/
def mergeUser (existingUser updatedUser : User) (id : String) : User :=
  let u1 := { updatedUser with id := id, email := existingUser.email }
  let u2 := if u1.password = "" then { u1 with password := existingUser.password } else u1
  if u2.role = "" then { u2 with role := existingUser.role } else u2

/-- `InMemoryRepository.Update` (part_008 lines 137-163): look up the
existing record, merge with `mergeUser`, write back under the same ID. -/
def InMemoryRepo.update (r : InMemoryRepo) (id : String) (updatedUser : User) :
    Except String User × InMemoryRepo :=
  match mapRead r.data id with
  | none => (Except.error ("user with id " ++ id ++ " not found"), r)
  | some existingUser =>
    let u3 := mergeUser existingUser updatedUser id
    (Except.ok u3, { r with data := mapWrite r.data id u3 })

/-- `InMemoryRepository.List` (part_008 lines 51-65): all stored users,
sorted by ID. -/
def InMemoryRepo.list (r : InMemoryRepo) : List User :=
  ((r.data.map (fun p => p.2)).mergeSort (fun a b => a.id ≤ b.id))

/-!
The Airtable-backed wrapper repository (`AirtableRepository` in
src/unnamed/part_008) delegates to an inner repository (the in-memory one
in deployment) and best-effort-syncs to the remote Airtable store.  The
remote client is passed in as explicit parameters:
* a remote record creation gives back `some recordID` on success, `none`
  on network failure;
* a remote filtered query (`ListRecords` with a `FilterByFormula` built
  from the lower-cased email, respectively the token) gives back
  `some records` on success (records already mapped through
  `mapAirtableRecord`, which never fails) and `none` on network failure;
* a remote partial update is a `Bool` success flag.
-/

/-- `AirtableRepository.Create` (part_008 lines 208-230): create in the
inner repository first; on remote-write failure log and still return the
locally created user with a nil error; on remote success return the user
with the Airtable record ID substituted. -/
def AirtableRepo.create (remoteCreate : Option String) (r : InMemoryRepo)
    (user : User) : Except String User × InMemoryRepo :=
  match InMemoryRepo.create r user with
  | (Except.error e, r') => (Except.error e, r')
  | (Except.ok created, r') =>
    match remoteCreate with
    | none => (Except.ok created, r')
    | some recordID => (Except.ok { created with id := recordID }, r')

/-- `AirtableRepository.GetByEmail` (part_008 lines 266-300): trim the
query; reject the empty query; otherwise query the remote store with the
lower-cased email (the Airtable filter is `LOWER({Email}) = '<lowered>'`),
falling back to the inner repository's exact-match scan on network failure
or when the remote query matches nothing. -/
def AirtableRepo.getByEmail (remoteQueryByEmailLower : String → Option (List User))
    (r : InMemoryRepo) (email : String) : Option User :=
  let email := strTrim email
  if email = "" then none
  else
    match remoteQueryByEmailLower (strToLower email) with
    | none => InMemoryRepo.getByEmail r email
    | some records =>
      match records.head? with
      | some u => some u
      | none => InMemoryRepo.getByEmail r email

/-- `AirtableRepository.GetByVerificationToken` (part_008 lines 303-337):
trim the token; return not-found for the empty token without any lookup;
otherwise query the remote store, falling back to the inner repository on
network failure or when the remote query matches nothing. -/
def AirtableRepo.getByVerificationToken (remoteQueryByToken : String → Option (List User))
    (r : InMemoryRepo) (token : String) : Option User :=
  let token := strTrim token
  if token = "" then none
  else
    match remoteQueryByToken token with
    | none => InMemoryRepo.getByVerificationToken r token
    | some records =>
      match records.head? with
      | some u => some u
      | none => InMemoryRepo.getByVerificationToken r token

/-- `AirtableRepository.Get` (part_008 lines 249-263): prefer the remote
record, fall back to the inner repository. -/
def AirtableRepo.get (remoteGet : Option User) (r : InMemoryRepo)
    (id : String) : Option User :=
  match remoteGet with
  | some u => some u
  | none => InMemoryRepo.get r id

/-- `AirtableRepository.Update` (part_008 lines 340-373): fetch the
existing user (inner repository first, then remote) to pin the email;
update the inner repository; on remote-write failure log and still return
the locally updated user with a nil error (both arms of the final match
return the same result, exactly as in the source). -/
def AirtableRepo.update (remoteGet : Option User) (remoteUpdateOk : Bool)
    (r : InMemoryRepo) (id : String) (updatedUser : User) :
    Except String User × InMemoryRepo :=
  match (match InMemoryRepo.get r id with
         | some u => some u
         | none => AirtableRepo.get remoteGet r id) with
  | none => (Except.error ("user with id " ++ id ++ " not found"), r)
  | some existingUser =>
    let pinned := { updatedUser with email := existingUser.email }
    match InMemoryRepo.update r id pinned with
    | (Except.error e, r') => (Except.error e, r')
    | (Except.ok updated, r') =>
      if remoteUpdateOk then (Except.ok updated, r')
      else (Except.ok updated, r')

/-!
The standalone Airtable repository (`AirtableRepository` in
src/internal/user/repository.go) keeps no local mirror: every operation
goes to the remote store and fails when the remote store fails.
-/

/-- `AirtableRepository.GetByEmail` (repository.go lines 108-142): trim,
reject empty, query the remote store with the lower-cased email; no
fallback — a network failure is not-found. -/
def AirtableOnlyRepo.getByEmail (remoteQueryByEmailLower : String → Option (List User))
    (email : String) : Option User :=
  let email := strTrim email
  if email = "" then none
  else
    match remoteQueryByEmailLower (strToLower email) with
    | none => none
    | some records => records.head?

/-- `AirtableRepository.Create` (repository.go lines 58-79): duplicate
check through the case-insensitive remote query, then a remote write that
fails the caller on network failure. -/
def AirtableOnlyRepo.create (remoteQueryByEmailLower : String → Option (List User))
    (remoteCreate : Option String) (user : User) : Except String User :=
  match AirtableOnlyRepo.getByEmail remoteQueryByEmailLower user.email with
  | some _ => Except.error ("user with email " ++ user.email ++ " already exists")
  | none =>
    match remoteCreate with
    | none => Except.error "failed to create user in Airtable"
    | some recordID => Except.ok { user with id := recordID }

/-- The field merge performed by the standalone `AirtableRepository.Update`
(repository.go lines 153-170): ID and email always from the existing
record; password, role AND status from the existing record when the
incoming value is empty. -/
def mergeUserWithStatus (existingUser updatedUser : User) (id : String) : User :=
  let u1 := { updatedUser with email := existingUser.email, id := id }
  let u2 := if u1.password = "" then { u1 with password := existingUser.password } else u1
  let u3 := if u2.role = "" then { u2 with role := existingUser.role } else u2
  if u3.status = "" then { u3 with status := existingUser.status } else u3

/-- `AirtableRepository.Update` (repository.go lines 146-184): fetch the
existing remote record, merge with `mergeUserWithStatus`, write the
merged record remotely; fail the caller when the remote write fails. -/
def AirtableOnlyRepo.update (remoteGet : Option User) (remoteUpdateOk : Bool)
    (id : String) (updatedUser : User) : Except String User :=
  match remoteGet with
  | none => Except.error ("user with id " ++ id ++ " not found")
  | some existingUser =>
    let u4 := mergeUserWithStatus existingUser updatedUser id
    if remoteUpdateOk then Except.ok u4
    else Except.error "failed to update user in Airtable"

/-- `User.ToAirtableFieldsForCreate` (part_008 second chunk, lines
402-419): the Airtable record written on creation.  Email, password and
the two timestamps are always written; role and status only when
non-empty, and an empty status is written as `StatusActive` ("Default to
active").  `time.Now()` is passed in as the `now` string. -/
def User.toAirtableFieldsForCreate (u : User) (now : String) :
    List (String × String) :=
  let fields := [(FieldEmail, u.email), (FieldPassword, u.password),
                 (FieldCreatedAt, now), (FieldUpdatedAt, now)]
  let fields := if u.role != "" then fields ++ [(FieldRole, u.role)] else fields
  if u.status != "" then fields ++ [(FieldStatus, u.status)]
  else fields ++ [(FieldStatus, StatusActive)]

/-!
HTTP handlers (src/unnamed/part_009).  The gin binding step, the bcrypt
hash and the JWT signer are collaborators outside the embedded core and
are passed in as parameters: `bindErr` is the result of
`ShouldBindJSON` (`some message` on a validation failure), `hashPassword`
returns `none` on a hashing failure, `generateToken` returns `none` on a
signing failure.  The handlers are stated over the in-memory repository,
the `Repository` implementation present in the sources.
-/

/-- `RegisterRequest` / `createUserPayload` (part_009 lines 240-250). -/
structure RegisterRequest where
  email : String
  password : String

/-- The admin user-creation payload (part_009 lines 246-250). -/
structure CreateUserPayload where
  email : String
  password : String
  role : String

/-- `TokenResponse` as returned by `RegisterHandler` (part_009 lines
98-103): access token, token type, expiry seconds and the user view. -/
structure TokenResponse where
  accessToken : String
  tokenType : String
  expiresIn : Int
  user : User

/-- The JSON responses the user handlers can produce, tagged by HTTP
status. -/
inductive HandlerResponse where
  /-- 400 with an error body. -/
  | badRequest (msg : String)
  /-- 409 with an error body. -/
  | conflict (msg : String)
  /-- 500 with an error body. -/
  | internalError (msg : String)
  /-- 201 with a `TokenResponse` body (register). -/
  | createdToken (resp : TokenResponse)
  /-- 201 with a user body (admin create). -/
  | createdUser (u : User)
  /-- 200 with a list of users (list). -/
  | okUsers (users : List User)

/-- `Handler.RegisterHandler` (part_009 lines 47-104): bind, duplicate
check, hash, create with role `User` (no status and no verification token
are set), then generate a JWT and answer 201 with a `TokenResponse`
carrying that access token and the password-stripped user. -/
def registerHandler (bindErr : Option String) (hashPassword : String → Option String)
    (generateToken : User → Option String) (tokenExpirySeconds : Int)
    (req : RegisterRequest) (repo : InMemoryRepo) :
    HandlerResponse × InMemoryRepo :=
  match bindErr with
  | some e => (.badRequest e, repo)
  | none =>
    match InMemoryRepo.getByEmail repo req.email with
    | some _ => (.conflict "Email already registered", repo)
    | none =>
      match hashPassword req.password with
      | none => (.internalError "Failed to hash password", repo)
      | some hashedPassword =>
        let user : User :=
          { id := "", email := req.email, password := hashedPassword,
            role := RoleUser, status := "", emailVerificationToken := "" }
        match InMemoryRepo.create repo user with
        | (Except.error e, repo') =>
          if strContains e "already exists" then
            (.conflict "Email already registered", repo')
          else (.internalError e, repo')
        | (Except.ok created, repo') =>
          match generateToken created with
          | none => (.internalError "Failed to generate token", repo')
          | some token =>
            let sanitized := { created with password := "" }
            (.createdToken
              { accessToken := token, tokenType := "Bearer",
                expiresIn := tokenExpirySeconds, user := sanitized }, repo')

/-- `Handler.ListUsers` (part_009 lines 132-139): list all users with the
password field blanked. -/
def listUsersHandler (repo : InMemoryRepo) : HandlerResponse :=
  .okUsers ((InMemoryRepo.list repo).map (fun u => { u with password := "" }))

/-- `strings.Join` of the valid-role list (the `joinRoles` helper is
absent from the sources; it only feeds an error message). -/
def joinRoles (roles : List String) : String :=
  String.intercalate ", " roles

/-- `Handler.CreateUser` (part_009 lines 156-210): bind, hash, validate
the role against `ValidRoles` (empty defaults to `User`), create, answer
201 with the password-stripped user. -/
def createUserHandler (bindErr : Option String) (hashPassword : String → Option String)
    (payload : CreateUserPayload) (repo : InMemoryRepo) :
    HandlerResponse × InMemoryRepo :=
  match bindErr with
  | some e => (.badRequest e, repo)
  | none =>
    match hashPassword payload.password with
    | none => (.internalError "Failed to hash password", repo)
    | some hashedPassword =>
      if payload.role != "" && !(ValidRoles.any (fun v => payload.role == v)) then
        (.badRequest ("Invalid role. Valid roles: " ++ joinRoles ValidRoles), repo)
      else
        let role := if payload.role = "" then RoleUser else payload.role
        let user : User :=
          { id := "", email := payload.email, password := hashedPassword,
            role := role, status := "", emailVerificationToken := "" }
        match InMemoryRepo.create repo user with
        | (Except.error e, repo') =>
          if strContains e "already exists" then (.conflict e, repo')
          else (.internalError e, repo')
        | (Except.ok created, repo') =>
          (.createdUser { created with password := "" }, repo')

/-!
The location resource (src/unnamed/part_003, second generation) and its
role-gated `ToggleLocationStatus` handler.
-/

/-- The location record as used by the second-generation location handler
(src/unnamed/part_003 and part_004 use `ID`, `Name`, `Slug`, `Status`). -/
structure Location where
  id : String
  name : String
  slug : String
  status : String

/-- Location status constant (`StatusActive = "Active"`, as in the
sibling `jobType` and `productGroup` model files). -/
def LocStatusActive : String := "Active"

/-- Location status constant (`StatusDisabled = "Disabled"`). -/
def LocStatusDisabled : String := "Disabled"

/-- The JSON responses `ToggleLocationStatus` can produce. -/
inductive ToggleResponse where
  /-- 401 with an error body. -/
  | unauthorized (msg : String)
  /-- 403 with an error body. -/
  | forbidden (msg : String)
  /-- 400 with an error body. -/
  | badRequest (msg : String)
  /-- 400 validation error. -/
  | validationError (msg : String)
  /-- 404 with the missing resource name. -/
  | notFound (what : String)
  /-- 500 with an error body. -/
  | internalError (msg : String)
  /-- 200 with the updated location. -/
  | ok (loc : Location)

/-- The location repository's `GetBySlug`, a scan for an exactly equal
slug (as in the `jobcategory` analogue, src/unnamed/part_007). -/
def locGetBySlug (locs : List Location) (slug : String) : Option Location :=
  locs.find? (fun l => l.slug == slug)

/-- The location repository's `Update`: replace the record with the given
ID, or report failure (as in the in-memory location repository,
src/unnamed/part_005 lines 83-94). -/
def locUpdate (locs : List Location) (id : String) (loc : Location) :
    Option (Location × List Location) :=
  if locs.any (fun l => l.id == id) then
    let updated := { loc with id := id }
    some (updated, locs.filter (fun l => l.id != id) ++ [updated])
  else none

/-- `Handler.ToggleLocationStatus` (part_003 lines 274-323).  The
request-scoped identity context is the `Option`al value stored under the
`user_role` key by the authentication middleware (`c.Get("user_role")`);
`slugMake` is the external `gosimple/slug` normaliser.  A missing role
value answers 401 before anything else runs; a non-admin role answers
403; otherwise the location found by slug has its status toggled between
`Active` and `Disabled` and is written back. -/
def toggleLocationStatus (slugMake : String → String) (ctxUserRole : Option String)
    (slugParam : String) (locs : List Location) :
    ToggleResponse × List Location :=
  match ctxUserRole with
  | none => (.unauthorized "User role not found", locs)
  | some role =>
    if role != RoleAdmin && role != RoleSuperAdmin then
      (.forbidden "Admin or Super Admin role required", locs)
    else if slugParam = "" then
      (.badRequest "Location slug is required", locs)
    else
      let normalizedSlug := slugMake slugParam
      if normalizedSlug = "" then (.validationError "Invalid slug format", locs)
      else
        match locGetBySlug locs normalizedSlug with
        | none => (.notFound "Location", locs)
        | some existingLocation =>
          let newStatus :=
            if existingLocation.status = LocStatusActive then LocStatusDisabled
            else LocStatusActive
          match locUpdate locs existingLocation.id
              { existingLocation with status := newStatus } with
          | none => (.internalError "Failed to update location status", locs)
          | some (updated, locs') => (.ok updated, locs')

/-!
`GenerateVerificationToken` (src/internal/email/service.go lines 89-96):
read 32 bytes from `crypto/rand` and hex-encode them.  The random source
is modelled as `Option (Fin 32 → Nat)`: `none` is a read failure, and a
successful read yields the 32 bytes (taken modulo 256, as Go's `byte`
is). -/

/-- The lower-case hexadecimal alphabet used by `hex.EncodeToString`
(Go's `hextable`). -/
def hexAlphabet : List Char := "0123456789abcdef".data

/-- The hexadecimal digit for a nibble. -/
def hexDigitChar (n : Nat) : Char := hexAlphabet.getD n '0'

/-- `hex.EncodeToString` on one byte: high nibble first. -/
def hexEncodeByte (b : Nat) : List Char :=
  [hexDigitChar (b % 256 / 16), hexDigitChar (b % 16)]

/-- `hex.EncodeToString` on a byte sequence. -/
def hexEncodeToString (bytes : List Nat) : String :=
  String.mk (bytes.flatMap hexEncodeByte)

/-- Whether a character belongs to the lower-case hexadecimal alphabet. -/
def isHexChar (c : Char) : Bool := hexAlphabet.contains c

/-- `GenerateVerificationToken` (service.go lines 89-96): on a successful
32-byte random read, the hex encoding of those bytes; an error exactly
when the read fails. -/
def GenerateVerificationToken (randRead : Option (Fin 32 → Nat)) :
    Except String String :=
  match randRead with
  | none => Except.error "failed to generate token"
  | some bytes => Except.ok (hexEncodeToString ((List.finRange 32).map bytes))

/-!
Reachable states of the in-memory account store: any interleaving of
create, update and delete operations.
-/

/-- One write operation on the in-memory account store. -/
inductive RepoOp where
  | createOp (u : User)
  | updateOp (id : String) (u : User)
  | deleteOp (id : String)

/-- Apply one write operation to the store, keeping the resulting state. -/
def applyOp (r : InMemoryRepo) (op : RepoOp) : InMemoryRepo :=
  match op with
  | RepoOp.createOp u => (InMemoryRepo.create r u).2
  | RepoOp.updateOp id u => (InMemoryRepo.update r id u).2
  | RepoOp.deleteOp id => (InMemoryRepo.delete r id).2

/-- Run a sequence of write operations from a starting state. -/
def runOps (r : InMemoryRepo) (ops : List RepoOp) : InMemoryRepo :=
  ops.foldl applyOp r

/-- No two stored entries carry the same (byte-identical) email. -/
def EmailsDistinct (r : InMemoryRepo) : Prop :=
  r.data.Pairwise (fun p q => p.2.email ≠ q.2.email)

/-!
Concrete fixtures used by the counterexamples and witnesses below.
-/

/-- A stand-in bcrypt hasher that always succeeds. -/
def demoHash : String → Option String := fun p => some ("bcrypt:" ++ p)

/-- A stand-in JWT signer that always succeeds. -/
def demoSign : User → Option String := fun _ => some "signed-jwt"

/-- A well-formed registration request. -/
def demoRegisterReq : RegisterRequest := { email := "a@x.com", password := "secret1" }

/-- The user stored by a successful registration of `demoRegisterReq`
against the empty store. -/
def demoStoredUser : User :=
  { id := "1", email := "a@x.com", password := "bcrypt:secret1",
    role := RoleUser, status := "", emailVerificationToken := "" }

/-- An account registered under a lower-case email. -/
def cxUserLower : User :=
  { id := "", email := "a@x.com", password := "h1", role := "User",
    status := "active", emailVerificationToken := "" }

/-- The same email with a capital letter. -/
def cxUserUpper : User :=
  { id := "", email := "A@x.com", password := "h2", role := "User",
    status := "active", emailVerificationToken := "" }

/-- A one-account store holding `cxUserLower` under ID `"1"`. -/
def cxStore : InMemoryRepo :=
  { data := [("1", { cxUserLower with id := "1" })], nextID := 2 }

/-- The partial update used by the status counterexample: password and
role supplied, status left empty. -/
def cxUpdateInput : User :=
  { id := "", email := "changed@x.com", password := "h9", role := "Admin",
    status := "", emailVerificationToken := "" }

/-- An account whose email has been verified: empty verification token. -/
def cxVerifiedUser : User :=
  { id := "9", email := "v@x.com", password := "h", role := "User",
    status := "active", emailVerificationToken := "" }

/-- A store holding the verified account. -/
def cxVerifiedStore : InMemoryRepo := { data := [("9", cxVerifiedUser)], nextID := 10 }

/-- Whether a handler response carries no password hash in any embedded
user view (error responses carry no user view at all). -/
def respNoPassword : HandlerResponse → Bool
  | .createdToken tr => tr.user.password == ""
  | .createdUser u => u.password == ""
  | .okUsers us => us.all (fun u => u.password == "")
  | _ => true

/-!
Theorems settling the claims.
-/

/-- C7: when the role gate of `ToggleLocationStatus` runs without the
authentication gate having stored a `user_role` value in the request
context, the request is answered 401 Unauthorized, the handler performs no
further work (the location store is returned unchanged), and in
particular it does not crash. -/
theorem role_gate_fails_closed_without_identity (slugMake : String → String)
    (slugParam : String) (locs : List Location) :
    toggleLocationStatus slugMake none slugParam locs =
      (ToggleResponse.unauthorized "User role not found", locs) := rfl

/-- C1 (code bug): a successful public registration — fresh email against
the empty store, hashing and persistence succeeding — answers 201 with a
`TokenResponse` whose `access_token` field is the freshly signed JWT and
is non-empty, contradicting the repository's own email-verification guide
("Does NOT return JWT token"). -/
theorem register_issues_bearer_token :
    (registerHandler none demoHash demoSign 3600 demoRegisterReq InMemoryRepo.empty).1 =
      HandlerResponse.createdToken
        { accessToken := "signed-jwt", tokenType := "Bearer", expiresIn := 3600,
          user := { demoStoredUser with password := "" } } ∧
      "signed-jwt" ≠ "" := by
  exact ⟨rfl, by decide⟩

/-- C2 (code bug): after the same successful public registration, the
stored account (found again by `getByEmail`) has an empty status — not
`StatusPending` — and an empty verification token, and the Airtable
record written for it even defaults the status column to `StatusActive`;
the registration flow in `RegisterHandler` never sets a status, never
generates a verification token, and sends no verification email. -/
theorem register_stores_no_pending_status_and_no_token :
    InMemoryRepo.getByEmail
        (registerHandler none demoHash demoSign 3600 demoRegisterReq InMemoryRepo.empty).2
        "a@x.com" = some demoStoredUser ∧
      demoStoredUser.status = "" ∧
      demoStoredUser.emailVerificationToken = "" ∧
      StatusPending ≠ "" ∧
      (demoStoredUser.toAirtableFieldsForCreate "2026-01-01T00:00:00Z").contains
        (FieldStatus, StatusActive) = true ∧
      StatusActive ≠ StatusPending := by
  refine ⟨rfl, rfl, rfl, by decide, by decide, by decide⟩

/-- C3 counterexample: from the empty store, creating an account with
email `a@x.com` and then one with email `A@x.com` both succeed, leaving
two stored accounts whose emails differ only in letter case — the
normalized-email uniqueness invariant fails, because
`InMemoryRepository.Create` compares emails byte-for-byte. -/
theorem create_admits_case_colliding_emails :
    (InMemoryRepo.create InMemoryRepo.empty cxUserLower).1 =
        Except.ok { cxUserLower with id := "1" } ∧
      (InMemoryRepo.create (InMemoryRepo.create InMemoryRepo.empty cxUserLower).2
          cxUserUpper).1 = Except.ok { cxUserUpper with id := "2" } ∧
      ((InMemoryRepo.create (InMemoryRepo.create InMemoryRepo.empty cxUserLower).2
          cxUserUpper).2).data =
        [("1", { cxUserLower with id := "1" }), ("2", { cxUserUpper with id := "2" })] ∧
      cxUserLower.email ≠ cxUserUpper.email ∧
      strToLower cxUserLower.email = strToLower cxUserUpper.email := by
  refine ⟨rfl, rfl, by decide, by decide, by decide⟩

/-- C4 counterexample: the store holds an account with email `a@x.com`;
the query `A@x.com` is equal to it up to letter case (after trimming),
yet the in-memory `GetByEmail` misses — it is not case-insensitive. -/
theorem getByEmail_misses_case_variant :
    InMemoryRepo.getByEmail cxStore "a@x.com" = some { cxUserLower with id := "1" } ∧
      strToLower (strTrim "A@x.com") = strToLower (strTrim "a@x.com") ∧
      InMemoryRepo.getByEmail cxStore "A@x.com" = none := by
  refine ⟨rfl, by decide, rfl⟩

/-- C5 counterexample: the store holds an account with status `active`;
updating it with a partial record whose status is empty yields a stored
account with an empty status — the existing status is not kept, because
`InMemoryRepository.Update` has no preservation branch for status. -/
theorem update_drops_existing_status :
    (InMemoryRepo.update cxStore "1" cxUpdateInput).1 =
        Except.ok { id := "1", email := "a@x.com", password := "h9", role := "Admin",
                    status := "", emailVerificationToken := "" } ∧
      ({ cxUserLower with id := "1" } : User).status = "active" ∧
      ("" : String) ≠ "active" := by
  refine ⟨rfl, rfl, by decide⟩

theorem mergeUser_spec (ex inc : User) (id : String) :
    (mergeUser ex inc id).id = id ∧
    (mergeUser ex inc id).email = ex.email ∧
    (mergeUser ex inc id).password = (if inc.password = "" then ex.password else inc.password) ∧
    (mergeUser ex inc id).role = (if inc.role = "" then ex.role else inc.role) ∧
    (mergeUser ex inc id).status = inc.status ∧
    (mergeUser ex inc id).emailVerificationToken = inc.emailVerificationToken := by
  by_cases h1 : inc.password = "" <;> by_cases h2 : inc.role = "" <;>
    simp [mergeUser, h1, h2]

theorem mergeUserWithStatus_spec (ex inc : User) (id : String) :
    (mergeUserWithStatus ex inc id).id = id ∧
    (mergeUserWithStatus ex inc id).email = ex.email ∧
    (mergeUserWithStatus ex inc id).password =
      (if inc.password = "" then ex.password else inc.password) ∧
    (mergeUserWithStatus ex inc id).role = (if inc.role = "" then ex.role else inc.role) ∧
    (mergeUserWithStatus ex inc id).status =
      (if inc.status = "" then ex.status else inc.status) := by
  by_cases h1 : inc.password = "" <;> by_cases h2 : inc.role = "" <;>
    by_cases h3 : inc.status = "" <;> simp [mergeUserWithStatus, h1, h2, h3]

/-- C5 (amended): for every existing account, update pins ID and email,
keeps the existing credential hash when the incoming hash is empty and
the existing role when the incoming role is empty — but the in-memory
update writes the incoming status through even when it is empty; only the
standalone Airtable repository's update also keeps the existing status
when the incoming status is empty. -/
theorem update_merge_preserves_fields :
    (∀ (r : InMemoryRepo) (id : String) (incoming existing : User),
        mapRead r.data id = some existing →
        ∃ u', (InMemoryRepo.update r id incoming).1 = Except.ok u' ∧
          u'.id = id ∧ u'.email = existing.email ∧
          (incoming.password = "" → u'.password = existing.password) ∧
          (incoming.password ≠ "" → u'.password = incoming.password) ∧
          (incoming.role = "" → u'.role = existing.role) ∧
          (incoming.role ≠ "" → u'.role = incoming.role) ∧
          u'.status = incoming.status) ∧
      (∀ (id : String) (incoming existing : User),
        ∃ u', AirtableOnlyRepo.update (some existing) true id incoming = Except.ok u' ∧
          u'.id = id ∧ u'.email = existing.email ∧
          (incoming.password = "" → u'.password = existing.password) ∧
          (incoming.role = "" → u'.role = existing.role) ∧
          (incoming.status = "" → u'.status = existing.status) ∧
          (incoming.status ≠ "" → u'.status = incoming.status)) := by
  constructor
  · intro r id incoming existing h
    obtain ⟨hid, hemail, hpwd, hrole, hstatus, _⟩ := mergeUser_spec existing incoming id
    refine ⟨mergeUser existing incoming id, ?_, hid, hemail, ?_, ?_, ?_, ?_, hstatus⟩
    · unfold InMemoryRepo.update
      rw [h]
    · intro hp; rw [hpwd, if_pos hp]
    · intro hp; rw [hpwd, if_neg hp]
    · intro hr; rw [hrole, if_pos hr]
    · intro hr; rw [hrole, if_neg hr]
  · intro id incoming existing
    obtain ⟨hid, hemail, hpwd, hrole, hstatus⟩ := mergeUserWithStatus_spec existing incoming id
    refine ⟨mergeUserWithStatus existing incoming id, rfl, hid, hemail, ?_, ?_, ?_, ?_⟩
    · intro hp; rw [hpwd, if_pos hp]
    · intro hr; rw [hrole, if_pos hr]
    · intro hs; rw [hstatus, if_pos hs]
    · intro hs; rw [hstatus, if_neg hs]

/-- Witness for `update_merge_preserves_fields` at a concrete store,
account and partial update. -/
theorem update_merge_preserves_fields_witness :
    (∃ u', (InMemoryRepo.update cxStore "1" cxUpdateInput).1 = Except.ok u' ∧
        u'.id = "1" ∧ u'.email = ({ cxUserLower with id := "1" } : User).email ∧
        (cxUpdateInput.password = "" →
          u'.password = ({ cxUserLower with id := "1" } : User).password) ∧
        (cxUpdateInput.password ≠ "" → u'.password = cxUpdateInput.password) ∧
        (cxUpdateInput.role = "" → u'.role = ({ cxUserLower with id := "1" } : User).role) ∧
        (cxUpdateInput.role ≠ "" → u'.role = cxUpdateInput.role) ∧
        u'.status = cxUpdateInput.status) ∧
      ∃ u', AirtableOnlyRepo.update (some cxUserLower) true "1" cxUpdateInput = Except.ok u' ∧
        u'.id = "1" ∧ u'.email = cxUserLower.email ∧
        (cxUpdateInput.password = "" → u'.password = cxUserLower.password) ∧
        (cxUpdateInput.role = "" → u'.role = cxUserLower.role) ∧
        (cxUpdateInput.status = "" → u'.status = cxUserLower.status) ∧
        (cxUpdateInput.status ≠ "" → u'.status = cxUpdateInput.status) :=
  ⟨update_merge_preserves_fields.1 cxStore "1" cxUpdateInput { cxUserLower with id := "1" } rfl,
    update_merge_preserves_fields.2 "1" cxUpdateInput cxUserLower⟩

/-- C4 (amended): the in-memory `GetByEmail` is an exact (case-sensitive)
match — it returns only accounts whose stored email is byte-identical to
the query, and finds one whenever such an account is stored; the
remote-backed `GetByEmail` is case-insensitive only through its remote
query, which it issues for the lower-cased trimmed email and whose first
hit it returns. -/
theorem getByEmail_exact_locally_lowered_remotely :
    (∀ (r : InMemoryRepo) (e : String) (u : User),
        InMemoryRepo.getByEmail r e = some u → u.email = e) ∧
      (∀ (r : InMemoryRepo) (e : String),
        (∃ p ∈ r.data, p.2.email = e) →
        ∃ u, InMemoryRepo.getByEmail r e = some u ∧ u.email = e) ∧
      (∀ (q : String → Option (List User)) (r : InMemoryRepo) (e : String)
          (u : User) (rest : List User),
        strTrim e ≠ "" → q (strToLower (strTrim e)) = some (u :: rest) →
        AirtableRepo.getByEmail q r e = some u) := by
  refine ⟨?_, ?_, ?_⟩
  · intro r e u h
    unfold InMemoryRepo.getByEmail at h
    obtain ⟨p, hfind, hp⟩ := Option.map_eq_some'.mp h
    have := List.find?_some hfind
    simp only [beq_iff_eq] at this
    rw [← hp]
    exact this
  · intro r e h
    obtain ⟨p, hp, he⟩ := h
    have hs : (r.data.find? (fun p => p.2.email == e)).isSome := by
      rw [List.find?_isSome]
      exact ⟨p, hp, by simp [he]⟩
    obtain ⟨p', hp'⟩ := Option.isSome_iff_exists.mp hs
    refine ⟨p'.2, ?_, ?_⟩
    · unfold InMemoryRepo.getByEmail
      rw [hp']
      rfl
    · have := List.find?_some hp'
      simpa using this
  · intro q r e u rest hne hq
    unfold AirtableRepo.getByEmail
    simp only [hne, if_false, hq]
    rfl

/-- Witness for `getByEmail_exact_locally_lowered_remotely`: the stored
lower-case account is found by its exact email, and a remote hit for the
lower-cased query is returned by the remote-backed lookup. -/
theorem getByEmail_exact_witness :
    (InMemoryRepo.getByEmail cxStore "a@x.com" = some { cxUserLower with id := "1" } →
        ({ cxUserLower with id := "1" } : User).email = "a@x.com") ∧
      (∃ u, InMemoryRepo.getByEmail cxStore "a@x.com" = some u ∧ u.email = "a@x.com") ∧
      AirtableRepo.getByEmail (fun _ => some [cxVerifiedUser]) InMemoryRepo.empty
        " V@X.com " = some cxVerifiedUser :=
  ⟨getByEmail_exact_locally_lowered_remotely.1 cxStore "a@x.com" { cxUserLower with id := "1" },
    getByEmail_exact_locally_lowered_remotely.2.1 cxStore "a@x.com"
      ⟨("1", { cxUserLower with id := "1" }), by decide, rfl⟩,
    getByEmail_exact_locally_lowered_remotely.2.2 (fun _ => some [cxVerifiedUser])
      InMemoryRepo.empty " V@X.com " cxVerifiedUser [] (by decide) rfl⟩

/-- C6: whenever the local (in-memory mirror) write succeeds, the
remote-backed wrapper's `Create` and `Update` return the locally written
record with no error even when the remote write fails (`none`
respectively `false` remote outcome). -/
theorem remote_write_failure_returns_local_result :
    (∀ (r r₁ : InMemoryRepo) (u created : User),
        InMemoryRepo.create r u = (Except.ok created, r₁) →
        AirtableRepo.create none r u = (Except.ok created, r₁)) ∧
      (∀ (r r₂ : InMemoryRepo) (id : String) (rg : Option User) (u existing updated : User),
        InMemoryRepo.get r id = some existing →
        InMemoryRepo.update r id { u with email := existing.email } =
          (Except.ok updated, r₂) →
        AirtableRepo.update rg false r id u = (Except.ok updated, r₂)) := by
  constructor
  · intro r r₁ u created h
    unfold AirtableRepo.create
    rw [h]
  · intro r r₂ id rg u existing updated hget hupd
    unfold AirtableRepo.update
    rw [hget]
    simp [hupd]

/-- Witness for `remote_write_failure_returns_local_result` at concrete
stores and a failing remote. -/
theorem remote_write_failure_witness :
    AirtableRepo.create none InMemoryRepo.empty cxUserLower =
      (Except.ok { cxUserLower with id := "1" },
        { data := [("1", { cxUserLower with id := "1" })], nextID := 2 }) ∧
      AirtableRepo.update none false cxStore "1" cxUpdateInput =
        (Except.ok (mergeUser { cxUserLower with id := "1" }
            { cxUpdateInput with email := "a@x.com" } "1"),
          { data := [("1", mergeUser { cxUserLower with id := "1" }
              { cxUpdateInput with email := "a@x.com" } "1")], nextID := 2 }) :=
  ⟨remote_write_failure_returns_local_result.1 InMemoryRepo.empty _ cxUserLower _ rfl,
    remote_write_failure_returns_local_result.2 cxStore _ "1" none cxUpdateInput
      { cxUserLower with id := "1" } _ rfl rfl⟩

/-- C10: the in-memory `GetByVerificationToken` does not reject the empty
token — any store containing a user whose verification-token field is
empty answers the empty-token query with such a user and ok=true — while
the remote-backed wrapper answers not-found for every empty or
whitespace-only token, independently of the remote store and of the local
mirror. -/
theorem getByVerificationToken_empty_token :
    (∀ (r : InMemoryRepo),
        (∃ p ∈ r.data, p.2.emailVerificationToken = "") →
        ∃ u, InMemoryRepo.getByVerificationToken r "" = some u ∧
          u.emailVerificationToken = "") ∧
      (∀ (q : String → Option (List User)) (r : InMemoryRepo) (tok : String),
        strTrim tok = "" →
        AirtableRepo.getByVerificationToken q r tok = none) := by
  constructor
  · intro r h
    obtain ⟨p, hp, he⟩ := h
    have hs : (r.data.find? (fun p => p.2.emailVerificationToken == "")).isSome := by
      rw [List.find?_isSome]
      exact ⟨p, hp, by simp [he]⟩
    obtain ⟨p', hp'⟩ := Option.isSome_iff_exists.mp hs
    refine ⟨p'.2, ?_, ?_⟩
    · unfold InMemoryRepo.getByVerificationToken
      rw [hp']
      rfl
    · have := List.find?_some hp'
      simpa using this
  · intro q r tok h
    unfold AirtableRepo.getByVerificationToken
    simp only [h, if_pos]

/-- Witness for `getByVerificationToken_empty_token`: a store holding one
verified account (empty token field) answers the empty query with it; the
wrapper rejects a whitespace-only token even when the remote store would
answer. -/
theorem getByVerificationToken_empty_token_witness :
    (∃ u, InMemoryRepo.getByVerificationToken cxVerifiedStore "" = some u ∧
        u.emailVerificationToken = "") ∧
      AirtableRepo.getByVerificationToken (fun _ => some [cxUserLower])
        cxVerifiedStore " " = none :=
  ⟨getByVerificationToken_empty_token.1 cxVerifiedStore ⟨("9", cxVerifiedUser), by decide, rfl⟩,
    getByVerificationToken_empty_token.2 (fun _ => some [cxUserLower])
      cxVerifiedStore " " (by decide)⟩

/-- C8: no HTTP user view carries the credential hash — the register
response, every element of the list-users response and the admin
create-user response have an empty password field, for every input, every
collaborator behaviour and every store state. -/
theorem http_views_hide_credential_hash :
    (∀ (be : Option String) (hash : String → Option String) (gen : User → Option String)
        (exp : Int) (req : RegisterRequest) (repo : InMemoryRepo),
        respNoPassword (registerHandler be hash gen exp req repo).1 = true) ∧
      (∀ repo : InMemoryRepo, respNoPassword (listUsersHandler repo) = true) ∧
      (∀ (be : Option String) (hash : String → Option String)
          (payload : CreateUserPayload) (repo : InMemoryRepo),
        respNoPassword (createUserHandler be hash payload repo).1 = true) := by
  refine ⟨?_, ?_, ?_⟩
  · intro be hash gen exp req repo
    unfold registerHandler
    repeat' split
    all_goals dsimp only
    all_goals repeat' split
    all_goals rfl
  · intro repo
    simp only [listUsersHandler, respNoPassword]
    rw [List.all_eq_true]
    intro u hu
    rw [List.mem_map] at hu
    obtain ⟨v, _, rfl⟩ := hu
    rfl
  · intro be hash payload repo
    unfold createUserHandler
    repeat' split
    all_goals dsimp only
    all_goals repeat' split
    all_goals rfl

theorem isHexChar_hexDigitChar (n : Nat) : isHexChar (hexDigitChar n) = true := by
  by_cases h : n < 16
  · interval_cases n <;> rfl
  · have hd : hexDigitChar n = '0' := by
      unfold hexDigitChar
      apply List.getD_eq_default
      show hexAlphabet.length ≤ n
      have hlen : hexAlphabet.length = 16 := rfl
      omega
    rw [hd]
    rfl

theorem hexEncode_length (l : List Nat) :
    (l.flatMap hexEncodeByte).length = 2 * l.length := by
  induction l with
  | nil => rfl
  | cons b rest ih =>
    simp only [List.flatMap_cons, List.length_append, List.length_cons, ih, hexEncodeByte]
    simp [Nat.mul_succ]
    omega

/-- C9: whenever the random source delivers its 32 bytes, the
verification-token generator returns a 64-character string over the
hexadecimal alphabet (two hex digits per random byte, 256 bits of
entropy), and it returns an error exactly when the random source fails. -/
theorem verification_token_64_hex :
    (∀ (bytes : Fin 32 → Nat),
        ∃ t, GenerateVerificationToken (some bytes) = Except.ok t ∧
          t.length = 64 ∧ t.data.all isHexChar = true) ∧
      GenerateVerificationToken none = Except.error "failed to generate token" := by
  constructor
  · intro bytes
    refine ⟨_, rfl, ?_, ?_⟩
    · show (((List.finRange 32).map bytes).flatMap hexEncodeByte).length = 64
      rw [hexEncode_length, List.length_map, List.length_finRange]
    · show (((List.finRange 32).map bytes).flatMap hexEncodeByte).all isHexChar = true
      rw [List.all_eq_true]
      intro c hc
      rw [List.mem_flatMap] at hc
      obtain ⟨b, _, hcb⟩ := hc
      simp only [hexEncodeByte, List.mem_cons, List.not_mem_nil, or_false] at hcb
      rcases hcb with rfl | rfl
      · exact isHexChar_hexDigitChar _
      · exact isHexChar_hexDigitChar _
  · rfl

theorem pairwise_email_mapWrite {data : List (String × User)} {k : String} {v : User}
    (hPW : data.Pairwise (fun p q => p.2.email ≠ q.2.email))
    (hall : ∀ p ∈ data, p.1 ≠ k → p.2.email ≠ v.email) :
    (mapWrite data k v).Pairwise (fun p q => p.2.email ≠ q.2.email) := by
  unfold mapWrite
  rw [List.pairwise_append]
  refine ⟨hPW.filter _, List.pairwise_singleton .., ?_⟩
  intro a ha b hb
  rw [List.mem_singleton] at hb
  subst hb
  rw [List.mem_filter] at ha
  exact hall a ha.1 (by simpa using ha.2)

theorem emailsDistinct_create (r : InMemoryRepo) (u : User)
    (h : EmailsDistinct r) : EmailsDistinct (InMemoryRepo.create r u).2 := by
  unfold InMemoryRepo.create
  split
  · exact h
  · next hany =>
    apply pairwise_email_mapWrite h
    intro p hp _ he
    apply hany
    rw [List.any_eq_true]
    exact ⟨p, hp, by simpa using he⟩

theorem emailsDistinct_update (r : InMemoryRepo) (id : String) (u : User)
    (h : EmailsDistinct r) : EmailsDistinct (InMemoryRepo.update r id u).2 := by
  unfold InMemoryRepo.update
  cases hm : mapRead r.data id with
  | none => exact h
  | some existing =>
    apply pairwise_email_mapWrite h
    obtain ⟨p0, hfind, hp0⟩ := Option.map_eq_some'.mp hm
    have hkey : p0.1 = id := by simpa using List.find?_some hfind
    have hmem : p0 ∈ r.data := List.mem_of_find?_eq_some hfind
    intro p hp hne
    have hvne : p ≠ p0 := fun hEq => hne (hEq ▸ hkey)
    have hemail : p.2.email ≠ p0.2.email :=
      List.Pairwise.forall (fun _ _ hab => hab.symm) h hp hmem hvne
    have hm3 : (mergeUser existing u id).email = existing.email :=
      (mergeUser_spec existing u id).2.1
    rw [hm3, ← hp0]
    exact hemail

theorem emailsDistinct_delete (r : InMemoryRepo) (id : String)
    (h : EmailsDistinct r) : EmailsDistinct (InMemoryRepo.delete r id).2 := by
  unfold InMemoryRepo.delete
  split
  · exact h.filter _
  · exact h

theorem emailsDistinct_applyOp (r : InMemoryRepo) (op : RepoOp)
    (h : EmailsDistinct r) : EmailsDistinct (applyOp r op) := by
  cases op with
  | createOp u => exact emailsDistinct_create r u h
  | updateOp id u => exact emailsDistinct_update r id u h
  | deleteOp id => exact emailsDistinct_delete r id h

/-- C3 (amended): in every state reachable from a store whose stored
emails are pairwise distinct byte-for-byte (in particular from the empty
store) by any sequence of create/update/delete operations, no two stored
accounts have the same exact email — `create` fails whenever the exact
email already exists, but, as the counterexample shows, it does not
prevent two accounts whose emails differ only in letter case. -/
theorem exact_email_uniqueness_reachable (ops : List RepoOp) (r : InMemoryRepo)
    (h : EmailsDistinct r) : EmailsDistinct (runOps r ops) := by
  induction ops generalizing r with
  | nil => exact h
  | cons op rest ih => exact ih (applyOp r op) (emailsDistinct_applyOp r op h)

/-- Witness for `exact_email_uniqueness_reachable`: a concrete run of
create, duplicate create, update and delete from the empty store. -/
theorem exact_email_uniqueness_reachable_witness :
    EmailsDistinct (runOps InMemoryRepo.empty
      [RepoOp.createOp cxUserLower, RepoOp.createOp cxUserLower,
        RepoOp.createOp cxVerifiedUser, RepoOp.updateOp "1" cxUpdateInput,
        RepoOp.deleteOp "2"]) :=
  exact_email_uniqueness_reachable _ InMemoryRepo.empty List.Pairwise.nil

end LamPhuong
